import Mathlib

/-!
# Verification of the kube-rs core against its specification

This file gives a shallow embedding, in Lean 4, of the parts of the kube-rs
client and runtime that the specification speaks about, together with theorems
settling each specified property:

* `Discovery` — the pluralization fallback (`to_plural` in
  `kube-core/src/discovery.rs`).
* `WatchExt` — the `EventFlatten` stream adapter
  (`kube-runtime/src/utils/watch_ext.rs`).
* `Lease` — the lease elector's state classification and acquire loop
  (`kube-runtime/src/lease.rs`).
* `Verbs` — typed HTTP request construction (`kube/src/client/verb.rs`).
* `Client` — HTTP error classification (`handle_api_errors` in
  `kube/src/client/mod.rs`).
* `Conversion` — the conversion-webhook envelope
  (`kube-core/src/conversion/types.rs`).
* `Upgrade` — WebSocket upgrade response verification
  (`kube-client/src/client/upgrade.rs` and `kube/src/client/mod.rs`).
* `Boundary` — the `ErrorBoundary` deserialization wrapper
  (`kube-core/src/error_boundary.rs`).

Machine integers are embedded as `Nat`/`Int` (no overflow is reachable in the
embedded fragments), timestamps as integer nanosecond counts, strings as Lean
`String`/`List Char` (the embedded code paths operate on ASCII data), and
fallible Rust functions as `Option`/`Except`.
-/

/-- A model of a JSON value (`serde_json::Value`).  Numbers are embedded as
integers: none of the embedded code paths constructs or inspects fractional
JSON numbers. -/
inductive Json where
  | null : Json
  | bool (b : Bool) : Json
  | num (n : Int) : Json
  | str (s : String) : Json
  | arr (elements : List Json) : Json
  | obj (fields : List (String × Json)) : Json

/-- First value bound to a key in a JSON object's field list. -/
def Json.lookup (fields : List (String × Json)) (key : String) : Option Json :=
  match fields with
  | [] => none
  | (k, v) :: rest => if k = key then some v else Json.lookup rest key

/-- Shorthand for the character list of a string literal. -/
def strChars (s : String) : List Char := s.toList

namespace Discovery

/-- The guard of the first pluralization rule in `to_plural`
(`kube-core/src/discovery.rs`): words ending in `s`, `x`, `z`, `ch`, `sh`. -/
def endsEs (w : List Char) : Bool :=
  ['s'].isSuffixOf w || ['x'].isSuffixOf w || ['z'].isSuffixOf w
    || ['c', 'h'].isSuffixOf w || ['s', 'h'].isSuffixOf w

/-- The vowel test used by `to_plural`: `matches!(c, 'a'|'e'|'i'|'o'|'u')`. -/
def isVowel (c : Char) : Bool := c ∈ ['a', 'e', 'i', 'o', 'u']

/-- `to_plural` from `kube-core/src/discovery.rs`, embedded on character lists
(the source operates on `&str`; all inputs are lowercased ASCII kind names).
`word.chars().nth(word.len() - 2)` indexes the second-to-last character; when
the word is shorter than two characters the `usize` subtraction wraps and the
lookup yields `None`, which is modelled by the explicit length guard. -/
def to_plural (w : List Char) : List Char :=
  if w = strChars "endpoints" ∨ w = strChars "endpointslices" then w
  else if w = strChars "nodemetrics" then strChars "nodes"
  else if w = strChars "podmetrics" then strChars "pods"
  else if endsEs w then w ++ strChars "es"
  else if ['y'].isSuffixOf w then
    match (if 2 ≤ w.length then w[w.length - 2]? else none) with
    | some c => if isVowel c then w ++ ['s'] else w.dropLast ++ strChars "ies"
    | none => w ++ ['s']
  else w ++ ['s']

/-- The hard-coded exception words of `to_plural`. -/
def pluralExceptions : List (List Char) :=
  [strChars "endpoints", strChars "endpointslices", strChars "nodemetrics",
    strChars "podmetrics"]

theorem suffix_y_decomp {w : List Char} (h : ['y'].isSuffixOf w = true) :
    ∃ u, w = u ++ ['y'] := by
  rw [List.isSuffixOf_iff_suffix] at h
  obtain ⟨u, hu⟩ := h
  exact ⟨u, hu.symm⟩

theorem notin_pluralExceptions {w : List Char} (h : w ∉ pluralExceptions) :
    ¬(w = strChars "endpoints" ∨ w = strChars "endpointslices") ∧
      w ≠ strChars "nodemetrics" ∧ w ≠ strChars "podmetrics" := by
  simp only [pluralExceptions, List.mem_cons, List.mem_singleton] at h
  push_neg at h
  exact ⟨fun hor => hor.elim h.1 h.2.1, h.2.2.1, h.2.2.2.1⟩

/-- C9: `to_plural` (the plural guess for a lowercase kind) keeps the fixed
exceptions `endpoints` and `endpointslices` unchanged and maps `nodemetrics`
to `nodes` and `podmetrics` to `pods`; otherwise it appends `es` to words
ending in `s`, `x`, `z`, `ch`, `sh`, replaces a trailing consonant-`y` by
`ies`, and appends `s` to every other word; in particular
`to_plural "ingress" = "ingresses"`, `to_plural "networkpolicy" =
"networkpolicies"` and `to_plural "endpoints" = "endpoints"`. -/
theorem to_plural_follows_rules :
    (to_plural (strChars "endpoints") = strChars "endpoints" ∧
      to_plural (strChars "endpointslices") = strChars "endpointslices" ∧
      to_plural (strChars "nodemetrics") = strChars "nodes" ∧
      to_plural (strChars "podmetrics") = strChars "pods") ∧
    (∀ w : List Char, w ∉ pluralExceptions → endsEs w = true →
      to_plural w = w ++ strChars "es") ∧
    (∀ (u : List Char) (c : Char), u ++ [c, 'y'] ∉ pluralExceptions →
      endsEs (u ++ [c, 'y']) = false → isVowel c = false →
      to_plural (u ++ [c, 'y']) = u ++ [c] ++ strChars "ies") ∧
    (∀ w : List Char, w ∉ pluralExceptions → endsEs w = false →
      (∀ (u : List Char) (c : Char), w = u ++ [c, 'y'] → isVowel c = true) →
      to_plural w = w ++ strChars "s") ∧
    (to_plural (strChars "ingress") = strChars "ingresses" ∧
      to_plural (strChars "networkpolicy") = strChars "networkpolicies" ∧
      to_plural (strChars "endpoints") = strChars "endpoints") := by
  refine ⟨by decide, ?_, ?_, ?_, by decide⟩
  · intro w hexc hcond
    obtain ⟨h1, h2, h3⟩ := notin_pluralExceptions hexc
    simp only [to_plural, if_neg h1, if_neg h2, if_neg h3, hcond, if_pos]
  · intro u c hexc hnes hcv
    obtain ⟨h1, h2, h3⟩ := notin_pluralExceptions hexc
    have hy : ['y'].isSuffixOf (u ++ [c, 'y']) = true := by
      rw [List.isSuffixOf_iff_suffix]
      exact ⟨u ++ [c], by simp⟩
    have hlen : (u ++ [c, 'y']).length = u.length + 2 := by simp
    have hguard : 2 ≤ (u ++ [c, 'y']).length := by omega
    have hget : (u ++ [c, 'y'])[(u ++ [c, 'y']).length - 2]? = some c := by
      rw [show (u ++ [c, 'y']).length - 2 = u.length from by omega,
        List.getElem?_append_right (le_refl u.length)]
      simp
    have hdrop : (u ++ [c, 'y']).dropLast = u ++ [c] := by
      rw [show u ++ [c, 'y'] = (u ++ [c]) ++ ['y'] from by simp]
      exact List.dropLast_concat
    simp only [to_plural, if_neg h1, if_neg h2, if_neg h3, hnes,
      Bool.false_eq_true, if_false, hy, if_true, if_pos hguard, hget, hcv,
      hdrop]
  · intro w hexc hnes hally
    obtain ⟨h1, h2, h3⟩ := notin_pluralExceptions hexc
    by_cases hy : ['y'].isSuffixOf w = true
    · obtain ⟨u, hu⟩ := suffix_y_decomp hy
      rcases List.eq_nil_or_concat u with hnil | ⟨v, c, hvc⟩
      · subst hu hnil
        simp only [to_plural, if_neg h1, if_neg h2, if_neg h3, hnes,
          Bool.false_eq_true, if_false, hy, if_true]
        rfl
      · have hw : w = v ++ [c, 'y'] := by
          rw [hu, hvc]
          simp
        have hvow : isVowel c = true := hally v c hw
        have hlen : w.length = v.length + 2 := by
          rw [hw]
          simp
        have hguard : 2 ≤ w.length := by omega
        have hget : w[w.length - 2]? = some c := by
          rw [hw, show (v ++ [c, 'y']).length - 2 = v.length from by simp,
            List.getElem?_append_right (le_refl v.length)]
          simp
        simp only [to_plural, if_neg h1, if_neg h2, if_neg h3, hnes,
          Bool.false_eq_true, if_false, hy, if_true, if_pos hguard, hget,
          hvow]
        rfl
    · simp only [to_plural, if_neg h1, if_neg h2, if_neg h3, hnes,
        Bool.false_eq_true, if_false, hy, if_false]
      rfl

/-- Witness: the consonant-`y` rule of `to_plural_follows_rules` applied at the
concrete kind `networkpolicy`. -/
theorem to_plural_follows_rules_witness :
    to_plural (strChars "networkpoli" ++ ['c', 'y']) =
      strChars "networkpoli" ++ ['c'] ++ strChars "ies" :=
  to_plural_follows_rules.2.2.1 (strChars "networkpoli") 'c' (by decide)
    (by decide) (by decide)

end Discovery

namespace WatchExt

/-- `watcher::Event` from kube-runtime: the event type consumed by
`EventFlatten` (`kube-runtime/src/utils/watch_ext.rs`). -/
inductive Event (K : Type) where
  | applied (obj : K)
  | deleted (obj : K)
  | restarted (objs : List K)

/-- The items that one stored stream element of `EventFlatten` drains to, in
order, following the `poll_next` loop of `impl Stream for EventFlatten`:
`Applied` is passed through, `Deleted` only when `delete` is set (touches
mode), an error is passed through, and a `Restarted` list is drained by
repeatedly popping its last element, i.e. emitted in reverse order. -/
def eventItems {K E : Type} (delete : Bool) :
    Except E (Event K) → List (Except E K)
  | .error e => [.error e]
  | .ok (.applied obj) => [.ok obj]
  | .ok (.deleted obj) => if delete then [.ok obj] else []
  | .ok (.restarted objs) => objs.reverse.map Except.ok

/-- The full output sequence of an `EventFlatten` stream over a finite input
sequence: each input element is drained completely (`state` is emptied) before
the next one is polled. -/
def eventFlatten {K E : Type} (delete : Bool)
    (events : List (Except E (Event K))) : List (Except E K) :=
  events.flatMap (eventItems delete)

/-- C10: `EventFlatten` (behind `watch_applies`/`watch_touches`) emits each
`Applied` object unchanged, emits `Deleted` objects only in touches mode,
passes errors through, and flattens `Restarted(list)` into the list's elements
in reverse order; the closing conjunct replays the event sequence of the
source's own unit test. -/
theorem eventFlatten_spec :
    (∀ (K E : Type) (delete : Bool) (e : Except E (Event K))
        (rest : List (Except E (Event K))),
      eventFlatten delete (e :: rest) =
        eventItems delete e ++ eventFlatten delete rest) ∧
    (∀ (K E : Type) (delete : Bool) (obj : K),
      eventItems (E := E) delete (.ok (.applied obj)) = [.ok obj]) ∧
    (∀ (K E : Type) (obj : K),
      eventItems (E := E) true (.ok (.deleted obj)) = [.ok obj]) ∧
    (∀ (K E : Type) (obj : K),
      eventItems (E := E) false (.ok (.deleted obj)) = []) ∧
    (∀ (K E : Type) (delete : Bool) (err : E),
      eventItems (K := K) delete (.error err) = [.error err]) ∧
    (∀ (K E : Type) (delete : Bool) (objs : List K),
      eventItems (E := E) delete (.ok (.restarted objs)) =
        objs.reverse.map Except.ok) ∧
    (eventFlatten (K := Nat) (E := Unit) false
        [.ok (.applied 0), .ok (.applied 1), .ok (.deleted 0),
          .ok (.applied 2), .ok (.restarted [1, 2]), .error (),
          .ok (.applied 2)] =
      [.ok 0, .ok 1, .ok 2, .ok 2, .ok 1, .error (), .ok 2]) := by
  refine ⟨?_, ?_, ?_, ?_, ?_, ?_, rfl⟩
  · intro K E delete e rest
    simp [eventFlatten]
  · intro K E delete obj
    rfl
  · intro K E obj
    rfl
  · intro K E obj
    rfl
  · intro K E delete err
    rfl
  · intro K E delete objs
    rfl

end WatchExt

namespace Elector

/-- `k8s_openapi::api::coordination::v1::LeaseSpec`, restricted to the fields
the elector consumes.  `MicroTime` timestamps are embedded as integer
nanosecond counts (chrono datetimes and durations are exact to the
nanosecond). -/
structure LeaseSpec where
  holder_identity : Option String
  lease_duration_seconds : Option Int
  acquire_time : Option Int
  renew_time : Option Int
  lease_transitions : Option Int
  deriving DecidableEq

/-- `LeaseSpec::default()`: every field `None`. -/
def LeaseSpec.default : LeaseSpec := ⟨none, none, none, none, none⟩

/-- `Lease`, restricted to its `spec` (the elector never reads the metadata it
does not write through `entry`). -/
structure Lease where
  spec : Option LeaseSpec

/-- `Lease::default()`. -/
def Lease.default : Lease := ⟨none⟩

/-- `LeaseState` from `kube-runtime/src/lease.rs`. -/
inductive LeaseState where
  | unheld
  | heldByOther (holder : String) (expires_at : Option Int)
  | heldBySelf (renew_at : Option Int)
  deriving DecidableEq

/-- Nanoseconds per second: `Duration::seconds(d)` is `d * nanosPerSec`
nanoseconds, and `Duration::seconds(d) / 2` is exactly
`d * nanosPerSec / 2` nanoseconds. -/
def nanosPerSec : Int := 1000000000

/-- `Elector::state`: classify a `LeaseSpec` relative to our identity. -/
def state (identity : String) (lease : LeaseSpec) : LeaseState :=
  match lease.holder_identity with
  | none => .unheld
  | some holder =>
    if holder = identity then
      .heldBySelf
        (match lease.lease_duration_seconds, lease.renew_time with
          | some duration_secs, some renew_time =>
            some (renew_time + duration_secs * nanosPerSec / 2)
          | _, _ => none)
    else
      .heldByOther holder
        (match lease.lease_duration_seconds, lease.renew_time with
          | some duration_secs, some renew_time =>
            some (renew_time + duration_secs * nanosPerSec)
          | _, _ => none)

/-- C7: the elector's derived lease state: no holder gives `Unheld`; our own
identity gives `HeldBySelf` with `renew_at = renew_time + duration/2` (absent
when `renew_time` or the duration is absent); any other holder gives
`HeldByOther` with `expires_at = renew_time + duration` (absent under the same
condition). -/
theorem elector_state_spec :
    (∀ (identity : String) (lease : LeaseSpec),
      lease.holder_identity = none → state identity lease = .unheld) ∧
    (∀ (identity : String) (lease : LeaseSpec) (d rt : Int),
      lease.holder_identity = some identity →
      lease.lease_duration_seconds = some d → lease.renew_time = some rt →
      state identity lease = .heldBySelf (some (rt + d * nanosPerSec / 2))) ∧
    (∀ (identity : String) (lease : LeaseSpec),
      lease.holder_identity = some identity →
      lease.lease_duration_seconds = none ∨ lease.renew_time = none →
      state identity lease = .heldBySelf none) ∧
    (∀ (identity holder : String) (lease : LeaseSpec) (d rt : Int),
      lease.holder_identity = some holder → holder ≠ identity →
      lease.lease_duration_seconds = some d → lease.renew_time = some rt →
      state identity lease = .heldByOther holder (some (rt + d * nanosPerSec))) ∧
    (∀ (identity holder : String) (lease : LeaseSpec),
      lease.holder_identity = some holder → holder ≠ identity →
      lease.lease_duration_seconds = none ∨ lease.renew_time = none →
      state identity lease = .heldByOther holder none) := by
  refine ⟨?_, ?_, ?_, ?_, ?_⟩
  · intro identity lease h
    simp [state, h]
  · intro identity lease d rt h hd hrt
    simp [state, h, hd, hrt]
  · intro identity lease h hnone
    rcases hnone with hd | hrt
    · cases hrt : lease.renew_time <;> simp [state, h, hd, hrt]
    · cases hd : lease.lease_duration_seconds <;> simp [state, h, hd, hrt]
  · intro identity holder lease d rt h hne hd hrt
    simp [state, h, hne, hd, hrt]
  · intro identity holder lease h hne hnone
    rcases hnone with hd | hrt
    · cases hrt : lease.renew_time <;> simp [state, h, hne, hd, hrt]
    · cases hd : lease.lease_duration_seconds <;> simp [state, h, hne, hd, hrt]

/-- Witness: `elector_state_spec` at a concrete lease held by ourselves with a
10-second duration renewed at time 100. -/
theorem elector_state_spec_witness :
    state "me" ⟨some "me", some 10, none, some 100, none⟩ =
      .heldBySelf (some (100 + 10 * nanosPerSec / 2)) :=
  elector_state_spec.2.1 "me" ⟨some "me", some 10, none, some 100, none⟩ 10 100
    rfl rfl rfl

/-- Modelled from the spec: `kube_client::api::entry::CommitError` is not under
`src/`; per the spec's error taxonomy a commit either fails from an
optimistic-concurrency `resourceVersion` conflict or from another write
error. -/
inductive CommitError where
  | conflict
  | other (message : String)
  deriving DecidableEq

/-- `AcquireError` from `kube-runtime/src/lease.rs` (`watcher::Error` and
`kube_client::Error` payloads are embedded as their messages). -/
inductive AcquireError where
  | watch (message : String)
  | get (message : String)
  | commit (error : CommitError)
  deriving DecidableEq

/-- `TryAcquireError` from `kube-runtime/src/lease.rs`. -/
inductive TryAcquireError where
  | acquire (source : AcquireError)
  | conflict (holder : String) (expires_at : Int)
  deriving DecidableEq

/-- The guard of `try_acquire`'s early return: a conflict is reported exactly
when the lease is `HeldByOther` with a known `expires_at` strictly in the
future (`expires_at > now`). -/
def heldConflict (lease_state : LeaseState) (now : Int) :
    Option (String × Int) :=
  match lease_state with
  | .heldByOther holder (some expires_at) =>
    if now < expires_at then some (holder, expires_at) else none
  | _ => none

/-- `matches!(lease_state, LeaseState::HeldBySelf { .. })`. -/
def isHeldBySelf : LeaseState → Bool
  | .heldBySelf _ => true
  | _ => false

/-- `Elector::try_acquire`.  The two effectful collaborators are passed in
explicitly: `entry` is the outcome of `api.entry(&self.name)` (an API error,
or the existing lease if any — `or_insert` supplies `Lease::default`), and
`commit` is the outcome of `entry.commit()` on the mutated lease.  The lease
is mutated exactly as in the source: when not already held by us, the holder,
`acquire_time` and incremented `lease_transitions` are written; `renew_time`
and `lease_duration_seconds` are always written. -/
def try_acquire (identity : String) (lease_duration_secs : Int) (now : Int)
    (entry : Except String (Option Lease))
    (commit : LeaseSpec → Except CommitError Unit) :
    Except TryAcquireError Unit :=
  match entry with
  | .error e => .error (.acquire (.get e))
  | .ok existing =>
    let lease := (existing.getD Lease.default).spec.getD LeaseSpec.default
    let lease_state := state identity lease
    match heldConflict lease_state now with
    | some (holder, expires_at) => .error (.conflict holder expires_at)
    | none =>
      let lease1 :=
        if isHeldBySelf lease_state then lease
        else
          { lease with
            holder_identity := some identity,
            acquire_time := some now,
            lease_transitions := some (lease.lease_transitions.getD 0 + 1) }
      let lease2 :=
        { lease1 with
          renew_time := some now,
          lease_duration_seconds := some lease_duration_secs }
      match commit lease2 with
      | .error e => .error (.acquire (.commit e))
      | .ok _ => .ok ()

/-- One iteration's environment for the `acquire` loop: the wall-clock `now`
sampled at the top of the loop, and the outcomes the API yields for this
iteration's `entry` fetch and `commit`. -/
structure AcquireEnv where
  now : Int
  entry : Except String (Option Lease)
  commit : LeaseSpec → Except CommitError Unit

/-- `Elector::acquire`: loop over `try_acquire`; a `TryAcquireError::Conflict`
sleeps until the reported expiry and retries, `Ok` succeeds, and any
`TryAcquireError::Acquire` source is returned as the error.  The loop is
modelled over an explicit finite list of per-iteration environments; `none`
means the loop was still retrying when the supplied iterations ran out. -/
def acquire (identity : String) (lease_duration_secs : Int) :
    List AcquireEnv → Option (Except AcquireError Unit)
  | [] => none
  | env :: rest =>
    match try_acquire identity lease_duration_secs env.now env.entry
        env.commit with
    | .ok _ => some (.ok ())
    | .error (.conflict _ _) => acquire identity lease_duration_secs rest
    | .error (.acquire e) => some (.error e)

/-- C2 counterexample: one acquire iteration on an unheld lease whose commit
fails with an optimistic-concurrency conflict (the lease's `resourceVersion`
changed between the entry fetch and the write).  The claim says the loop
retries and never fails; the code returns `AcquireError::Commit`
immediately. -/
theorem acquire_commit_conflict_is_fatal :
    acquire "us" 15
        [⟨0, .ok (some ⟨some LeaseSpec.default⟩), fun _ => .error .conflict⟩] =
      some (.error (.commit .conflict)) := rfl

/-- C2 (amended): in the acquire loop only a `TryAcquireError::Conflict`
(lease validly held by another) is retried; a successful `try_acquire` ends
the loop, and any `TryAcquireError::Acquire` source — including a commit
failure from an optimistic-concurrency `resourceVersion` conflict — is
returned as the loop's error. -/
theorem acquire_retries_only_held_conflicts :
    ∀ (identity : String) (dur : Int) (env : AcquireEnv)
      (rest : List AcquireEnv),
      (∀ (holder : String) (expires_at : Int),
        try_acquire identity dur env.now env.entry env.commit =
          .error (.conflict holder expires_at) →
        acquire identity dur (env :: rest) = acquire identity dur rest) ∧
      (try_acquire identity dur env.now env.entry env.commit = .ok () →
        acquire identity dur (env :: rest) = some (.ok ())) ∧
      (∀ e : AcquireError,
        try_acquire identity dur env.now env.entry env.commit =
          .error (.acquire e) →
        acquire identity dur (env :: rest) = some (.error e)) := by
  intro identity dur env rest
  refine ⟨?_, ?_, ?_⟩
  · intro holder expires_at h
    simp [acquire, h]
  · intro h
    simp [acquire, h]
  · intro e h
    simp [acquire, h]

/-- Witness: `acquire_retries_only_held_conflicts` at a concrete iteration
whose commit fails with a non-conflict error. -/
theorem acquire_retries_only_held_conflicts_witness :
    acquire "us" 15
        [⟨0, .ok (some ⟨some LeaseSpec.default⟩),
          fun _ => .error (.other "boom")⟩] =
      some (.error (.commit (.other "boom"))) :=
  (acquire_retries_only_held_conflicts "us" 15
        ⟨0, .ok (some ⟨some LeaseSpec.default⟩),
          fun _ => .error (.other "boom")⟩ []).2.2
    (.commit (.other "boom")) rfl

end Elector

namespace Verbs

/-- HTTP method of a built request (`http::Request::get/post/put/delete/patch`
builders). -/
inductive Method where
  | get
  | post
  | put
  | delete
  | patch
  deriving DecidableEq

/-- An HTTP request as built by the `Verb` implementations: method, URI and
body (bodies are byte vectors of serialized JSON; embedded as strings). -/
structure HttpRequest where
  method : Method
  uri : String
  body : String
  deriving DecidableEq

/-- `kube::client::verb::Error`. -/
inductive Error where
  | buildRequestFailed (message : String)
  | serializeFailed (message : String)
  | unnamedObject
  deriving DecidableEq

/-- Modelled from the spec: `Resource::url_path` lives in kube-core's
`resource.rs`, which is not under `src/`.  Per the spec, the path is
`/api/<version>` for the core (empty) group and `/apis/<group>/<version>`
otherwise, with `/namespaces/<ns>` inserted when a namespace is bound, and
the plural appended. -/
def url_path (group version plural : String) (ns : Option String) : String :=
  (if group = "" then "/api/" ++ version
    else "/apis/" ++ group ++ "/" ++ version) ++
    (match ns with
      | some n => "/namespaces/" ++ n
      | none => "") ++
    "/" ++ plural

/-- Uppercase hex digit, for percent-escapes. -/
def hexDigitUpper (n : Nat) : Char :=
  if n < 10 then Char.ofNat ('0'.toNat + n) else Char.ofNat ('A'.toNat + n - 10)

/-- `form_urlencoded` byte encoding of one character: alphanumerics and
`*-._` pass through, space becomes `+`, anything else is percent-escaped.
The embedded call sites only pass ASCII data, so characters coincide with
bytes. -/
def formUrlByteEncode (c : Char) : List Char :=
  if c = ' ' then ['+']
  else if c.isAlphanum ∨ c ∈ ['*', '-', '.', '_'] then [c]
  else ['%', hexDigitUpper (c.toNat / 16 % 16), hexDigitUpper (c.toNat % 16)]

/-- `form_urlencoded::Serializer::append_pair`, applied to a whole pair
list: `key=value` joined by `&`. -/
def formUrlEncode (pairs : List (String × String)) : String :=
  String.intercalate "&"
    (pairs.map fun p =>
      String.mk (p.1.toList.flatMap formUrlByteEncode) ++ "=" ++
        String.mk (p.2.toList.flatMap formUrlByteEncode))

/-- `Query` from `kube/src/client/verb.rs`. -/
structure Query where
  label_selector : Option String
  field_selector : Option String

/-- `Query::populate_qp`: emit `labelSelector`/`fieldSelector` only when
set. -/
def Query.populate_qp (q : Query) : List (String × String) :=
  (match q.label_selector with
    | some labels => [("labelSelector", labels)]
    | none => []) ++
  (match q.field_selector with
    | some fields => [("fieldSelector", fields)]
    | none => [])

/-- The query pairs appended by `List::to_http_request`: the selectors, then
`limit` and `continue` only when set. -/
def listQueryPairs (q : Query) (limit : Option Nat)
    (continue_token : Option String) : List (String × String) :=
  q.populate_qp ++
  (match limit with
    | some l => [("limit", toString l)]
    | none => []) ++
  (match continue_token with
    | some cont => [("continue", cont)]
    | none => [])

/-- `List::to_http_request`: GET on the resource URL with the serialized
query appended after `?`. -/
def listToHttpRequest (base : String) (q : Query) (limit : Option Nat)
    (continue_token : Option String) : HttpRequest :=
  { method := .get,
    uri := base ++ "?" ++ formUrlEncode (listQueryPairs q limit continue_token),
    body := "" }

/-- The query pairs appended by `Watch::to_http_request`: `watch=1`,
`resourceVersion` (always, with the caller's version string),
`allowWatchBookmarks=1`, and `timeoutSeconds` only when a timeout is set
(`Duration::as_secs`, embedded as the second count directly).  The `query`
field of the `Watch` struct is not consulted. -/
def watchQueryPairs (version : String) (timeout_secs : Option Nat) :
    List (String × String) :=
  [("watch", "1"), ("resourceVersion", version), ("allowWatchBookmarks", "1")]
    ++
  (match timeout_secs with
    | some t => [("timeoutSeconds", toString t)]
    | none => [])

/-- `Watch::to_http_request`. -/
def watchToHttpRequest (base version : String) (timeout_secs : Option Nat) :
    HttpRequest :=
  { method := .get,
    uri := base ++ "?" ++ formUrlEncode (watchQueryPairs version timeout_secs),
    body := "" }

/-- `Replace::to_http_request`, parameterized by the `Kind`'s JSON
serializer (`serde_json::to_vec`) and name accessor
(`object.meta().name`).  The source builds the request with
`Request::patch`, not `Request::put`. -/
def replaceToHttpRequest {K : Type} (serialize : K → Except String String)
    (metaName : K → Option String) (base : String) (object : K) :
    Except Error HttpRequest :=
  match metaName object with
  | none => .error .unnamedObject
  | some name =>
    match serialize object with
    | .error e => .error (.serializeFailed e)
    | .ok body => .ok { method := .patch, uri := base ++ "/" ++ name, body }

/-- C1: `Replace::to_http_request` does serialize the object into the body
and target `base/<name>`, but it builds the request with method PATCH
(`Request::patch`), not PUT as the `Replace` verb is specified and documented
to do. -/
theorem replace_builds_patch_not_put :
    replaceToHttpRequest (fun _ : Unit => .ok "\x7b\x7d") (fun _ => some "foo")
        (url_path "" "v1" "configmaps" (some "default")) () =
      .ok
        { method := .patch,
          uri := "/api/v1/namespaces/default/configmaps/foo",
          body := "\x7b\x7d" } ∧
      Method.patch ≠ Method.put := ⟨rfl, by decide⟩

/-- C3 counterexample: a concrete Watch request URL contains `watch=1`, not
`watch=true` (and likewise `allowWatchBookmarks=1`): booleans are serialized
as `"1"`, so the claim's `watch=true` does not appear in the built URL. -/
theorem watch_url_has_watch_eq_one :
    (watchToHttpRequest (url_path "" "v1" "pods" none) "5" none).uri =
        "/api/v1/pods?watch=1&resourceVersion=5&allowWatchBookmarks=1" ∧
      (strChars "watch=1") <:+:
        strChars (watchToHttpRequest (url_path "" "v1" "pods" none) "5" none).uri ∧
      ¬(strChars "watch=true") <:+:
        strChars (watchToHttpRequest (url_path "" "v1" "pods" none) "5" none).uri ∧
      ¬(strChars "allowWatchBookmarks=true") <:+:
        strChars (watchToHttpRequest (url_path "" "v1" "pods" none) "5" none).uri := by
  refine ⟨rfl, by decide, by decide, by decide⟩

theorem toDigitsCore_ne_nil (b : Nat) :
    ∀ (fuel n : Nat) (ds : List Char), ds ≠ [] →
      Nat.toDigitsCore b fuel n ds ≠ []
  | 0, _, ds, h => by simpa [Nat.toDigitsCore] using h
  | fuel + 1, n, ds, h => by
    simp only [Nat.toDigitsCore]
    split
    · simp
    · exact toDigitsCore_ne_nil b fuel _ _ (by simp)

theorem natToString_ne_empty (n : Nat) : toString n ≠ "" := by
  show Nat.repr n ≠ ""
  unfold Nat.repr
  intro h
  have h2 : Nat.toDigits 10 n = [] := by
    have h3 := congrArg String.toList h
    simpa [List.asString] using h3
  revert h2
  unfold Nat.toDigits
  simp only [Nat.toDigitsCore]
  split
  · simp
  · exact toDigitsCore_ne_nil 10 _ _ _ (by simp)

/-- C3 (amended): Watch serializes its boolean query parameters as the
literal `"1"` (`watch=1`, `allowWatchBookmarks=1`); `timeoutSeconds` appears
exactly when the timeout option is set, and `limit`/`continue` on List exactly
when set; provided the caller-supplied resourceVersion, selectors and
continue token are nonempty, no query key is emitted with an empty value. -/
theorem watch_list_query_pairs_spec (version : String)
    (timeout_secs : Option Nat) (q : Query) (limit : Option Nat)
    (continue_token : Option String) :
    version ≠ "" →
    (∀ l, q.label_selector = some l → l ≠ "") →
    (∀ f, q.field_selector = some f → f ≠ "") →
    (∀ c, continue_token = some c → c ≠ "") →
    (("watch", "1") ∈ watchQueryPairs version timeout_secs) ∧
    (("allowWatchBookmarks", "1") ∈ watchQueryPairs version timeout_secs) ∧
    (∀ kv ∈ watchQueryPairs version timeout_secs, kv.2 ≠ "") ∧
    ((∃ v, ("timeoutSeconds", v) ∈ watchQueryPairs version timeout_secs) ↔
      timeout_secs.isSome) ∧
    (∀ kv ∈ listQueryPairs q limit continue_token, kv.2 ≠ "") ∧
    ((∃ v, ("limit", v) ∈ listQueryPairs q limit continue_token) ↔
      limit.isSome) ∧
    ((∃ v, ("continue", v) ∈ listQueryPairs q limit continue_token) ↔
      continue_token.isSome) := by
  intro hv hl hf hc
  obtain ⟨ls, fs⟩ := q
  refine ⟨?_, ?_, ?_, ?_, ?_, ?_, ?_⟩
  · cases timeout_secs <;> simp [watchQueryPairs]
  · cases timeout_secs <;> simp [watchQueryPairs]
  · intro kv hkv
    cases timeout_secs with
    | none =>
      simp only [watchQueryPairs, List.append_nil, List.mem_cons,
        List.mem_singleton, List.not_mem_nil, or_false] at hkv
      rcases hkv with rfl | rfl | rfl
      · decide
      · exact hv
      · decide
    | some t =>
      simp only [watchQueryPairs, List.mem_append, List.mem_cons,
        List.mem_singleton, List.not_mem_nil, or_false] at hkv
      rcases hkv with (rfl | rfl | rfl) | rfl
      · decide
      · exact hv
      · decide
      · exact natToString_ne_empty t
  · cases timeout_secs <;> simp [watchQueryPairs]
  · intro kv hkv
    have hcases :
        (∃ l, ls = some l ∧ kv = ("labelSelector", l)) ∨
          (∃ f, fs = some f ∧ kv = ("fieldSelector", f)) ∨
          (∃ n, limit = some n ∧ kv = ("limit", toString n)) ∨
          (∃ c, continue_token = some c ∧ kv = ("continue", c)) := by
      rcases ls with _ | l <;> rcases fs with _ | f <;>
        rcases limit with _ | lim <;>
        rcases continue_token with _ | cont <;>
        simp_all [listQueryPairs, Query.populate_qp]
    rcases hcases with ⟨l, hls, rfl⟩ | ⟨f, hfs, rfl⟩ | ⟨n, _, rfl⟩ |
        ⟨c, hct, rfl⟩
    · exact hl l hls
    · exact hf f hfs
    · exact natToString_ne_empty n
    · exact hc c hct
  · rcases ls with _ | l <;> rcases fs with _ | f <;>
      rcases limit with _ | lim <;> rcases continue_token with _ | cont <;>
      simp [listQueryPairs, Query.populate_qp]
  · rcases ls with _ | l <;> rcases fs with _ | f <;>
      rcases limit with _ | lim <;> rcases continue_token with _ | cont <;>
      simp [listQueryPairs, Query.populate_qp]

/-- Witness: `watch_list_query_pairs_spec` at concrete options (version `5`,
30-second timeout, a label selector, limit 500 and a continue token). -/
theorem watch_list_query_pairs_spec_witness :
    ("watch", "1") ∈ watchQueryPairs "5" (some 30) :=
  (watch_list_query_pairs_spec "5" (some 30) ⟨some "a=b", none⟩ (some 500)
      (some "tok") (by decide) (fun l h => by cases h; decide)
      (fun f h => by cases h) (fun c h => by cases h; decide)).1

end Verbs

namespace Client

/-- JSON whitespace skipping (`serde_json` accepts space, tab, newline and
carriage return between tokens). -/
def skipWs : List Char → List Char
  | c :: rest =>
    if c = ' ' ∨ c = '\t' ∨ c = '\n' ∨ c = '\r' then skipWs rest
    else c :: rest
  | [] => []

/-- Value of one hex digit. -/
def hexVal? (c : Char) : Option Nat :=
  if '0' ≤ c ∧ c ≤ '9' then some (c.toNat - '0'.toNat)
  else if 'a' ≤ c ∧ c ≤ 'f' then some (c.toNat - 'a'.toNat + 10)
  else if 'A' ≤ c ∧ c ≤ 'F' then some (c.toNat - 'A'.toNat + 10)
  else none

/-- Four hex digits of a `\uXXXX` escape. -/
def parseHex4 : List Char → Option (Nat × List Char)
  | a :: b :: c :: d :: rest =>
    match hexVal? a, hexVal? b, hexVal? c, hexVal? d with
    | some va, some vb, some vc, some vd =>
      some (va * 4096 + vb * 256 + vc * 16 + vd, rest)
    | _, _, _, _ => none
  | _ => none

/-- Body of a JSON string literal, after the opening quote; returns the
decoded characters and the input after the closing quote. -/
def parseStringBody : Nat → List Char → Option (List Char × List Char)
  | 0, _ => none
  | _, [] => none
  | fuel + 1, c :: rest =>
    if c = '"' then some ([], rest)
    else if c = '\\' then
      match rest with
      | [] => none
      | e :: rest2 =>
        let esc : Option (Char × List Char) :=
          if e = '"' then some ('"', rest2)
          else if e = '\\' then some ('\\', rest2)
          else if e = '/' then some ('/', rest2)
          else if e = 'b' then some (Char.ofNat 8, rest2)
          else if e = 'f' then some (Char.ofNat 12, rest2)
          else if e = 'n' then some ('\n', rest2)
          else if e = 'r' then some ('\r', rest2)
          else if e = 't' then some ('\t', rest2)
          else if e = 'u' then
            match parseHex4 rest2 with
            | some (n, rest3) => some (Char.ofNat n, rest3)
            | none => none
          else none
        match esc with
        | some (ch, rest3) =>
          match parseStringBody fuel rest3 with
          | some (chars, rest4) => some (ch :: chars, rest4)
          | none => none
        | none => none
    else
      match parseStringBody fuel rest with
      | some (chars, rest2) => some (c :: chars, rest2)
      | none => none

/-- Decimal value of a digit run. -/
def digitsVal (ds : List Char) : Nat :=
  ds.foldl (fun acc c => acc * 10 + (c.toNat - '0'.toNat)) 0

/-- A JSON integer (an optional leading `-` has already been consumed).
Fractional or exponent numbers are rejected — no embedded code path feeds
them. -/
def parseNumber (cs : List Char) (neg : Bool) : Option (Json × List Char) :=
  match cs.span Char.isDigit with
  | (ds, rest) =>
    if ds.isEmpty then none
    else
      let value : Json :=
        .num (if neg then -(digitsVal ds : Int) else (digitsVal ds : Int))
      match rest with
      | c :: _ => if c = '.' ∨ c = 'e' ∨ c = 'E' then none
          else some (value, rest)
      | [] => some (value, [])

mutual

/-- A JSON value (`serde_json::from_str`'s grammar, on the integer fragment),
by fuelled recursive descent. -/
def parseValue : Nat → List Char → Option (Json × List Char)
  | 0, _ => none
  | fuel + 1, cs =>
    match skipWs cs with
    | [] => none
    | c :: rest =>
      if c = 'n' then
        if (strChars "ull").isPrefixOf rest then some (.null, rest.drop 3)
        else none
      else if c = 't' then
        if (strChars "rue").isPrefixOf rest then some (.bool true, rest.drop 3)
        else none
      else if c = 'f' then
        if (strChars "alse").isPrefixOf rest then
          some (.bool false, rest.drop 4)
        else none
      else if c = '"' then
        match parseStringBody (fuel + 1) rest with
        | some (chars, rest2) => some (.str (String.mk chars), rest2)
        | none => none
      else if c = '[' then
        match skipWs rest with
        | ']' :: rest2 => some (.arr [], rest2)
        | rest2 =>
          match parseArrayItems fuel rest2 with
          | some (vs, rest3) => some (.arr vs, rest3)
          | none => none
      else if c = Char.ofNat 123 then
        match skipWs rest with
        | d :: rest2 =>
          if d = Char.ofNat 125 then some (.obj [], rest2)
          else
            match parseObjectItems fuel (d :: rest2) with
            | some (fields, rest3) => some (.obj fields, rest3)
            | none => none
        | [] => none
      else if c = '-' then parseNumber rest true
      else if c.isDigit then parseNumber (c :: rest) false
      else none

/-- Comma-separated JSON array elements up to the closing bracket. -/
def parseArrayItems : Nat → List Char → Option (List Json × List Char)
  | 0, _ => none
  | fuel + 1, cs =>
    match parseValue fuel cs with
    | some (v, rest) =>
      match skipWs rest with
      | ',' :: rest2 =>
        match parseArrayItems fuel rest2 with
        | some (vs, rest3) => some (v :: vs, rest3)
        | none => none
      | ']' :: rest2 => some ([v], rest2)
      | _ => none
    | none => none

/-- Comma-separated JSON object members up to the closing brace. -/
def parseObjectItems :
    Nat → List Char → Option (List (String × Json) × List Char)
  | 0, _ => none
  | fuel + 1, cs =>
    match skipWs cs with
    | '"' :: rest =>
      match parseStringBody (fuel + 1) rest with
      | some (key, rest2) =>
        match skipWs rest2 with
        | ':' :: rest3 =>
          match parseValue fuel rest3 with
          | some (v, rest4) =>
            match skipWs rest4 with
            | ',' :: rest5 =>
              match parseObjectItems fuel rest5 with
              | some (fields, rest6) =>
                some ((String.mk key, v) :: fields, rest6)
              | none => none
            | d :: rest5 =>
              if d = Char.ofNat 125 then some ([(String.mk key, v)], rest5)
              else none
            | [] => none
          | none => none
        | _ => none
      | none => none
    | _ => none

end

/-- `serde_json::from_str::<Value>` on the integer fragment: parse one value
and require only trailing whitespace. -/
def parseJson (s : String) : Option Json :=
  match parseValue (2 * s.length + 2) s.toList with
  | some (v, rest) => if skipWs rest = [] then some v else none
  | none => none

/-- `k8s_openapi::apimachinery::pkg::apis::meta::v1::Status`, restricted to
the fields the client's error path reads or writes (`metadata` and `details`
are never inspected by the embedded fragment). -/
structure Status where
  status : Option String
  message : Option String
  reason : Option String
  code : Option Int
  deriving DecidableEq

/-- An optional string field of a deserialized object: absent or `null` is
`None`, a string is `Some`, any other type is a deserialization error. -/
def getOptString (fields : List (String × Json)) (key : String) :
    Option (Option String) :=
  match Json.lookup fields key with
  | none => some none
  | some (.str s) => some (some s)
  | some .null => some none
  | some _ => none

/-- An optional integer field, with the same conventions. -/
def getOptInt (fields : List (String × Json)) (key : String) :
    Option (Option Int) :=
  match Json.lookup fields key with
  | none => some none
  | some (.num n) => some (some n)
  | some .null => some none
  | some _ => none

/-- The `Status` deserializer of `k8s_openapi`: any JSON object is accepted
(every field is optional and unknown fields are ignored); non-objects and
wrongly-typed fields are rejected. -/
def statusOfJson : Json → Option Status
  | .obj fields =>
    match getOptString fields "status", getOptString fields "message",
        getOptString fields "reason", getOptInt fields "code" with
    | some st, some msg, some reason, some code => some ⟨st, msg, reason, code⟩
    | _, _, _, _ => none
  | _ => none

/-- `serde_json::from_str::<Status>`. -/
def parseStatusText (s : String) : Option Status :=
  (parseJson s).bind statusOfJson

/-- One character of Rust's `str` `Debug` formatting (`escape_debug`): named
escapes for tab, carriage return, newline, backslash, double quote and NUL;
`\u{..}` (lowercase hex) for other control characters; everything else is
kept (the embedded call sites only format ASCII bodies). -/
def escapeDebugChar (c : Char) : List Char :=
  if c = '\t' then ['\\', 't']
  else if c = '\r' then ['\\', 'r']
  else if c = '\n' then ['\\', 'n']
  else if c = '\\' then ['\\', '\\']
  else if c = '"' then ['\\', '"']
  else if c = Char.ofNat 0 then ['\\', '0']
  else if c.toNat < 32 ∨ c.toNat = 127 then
    ['\\', 'u', Char.ofNat 123] ++ Nat.toDigits 16 c.toNat ++ [Char.ofNat 125]
  else [c]

/-- `format!("{:?}", text)` for a `&str`: the body wrapped in double quotes
with `escape_debug` escapes applied. -/
def rustDebugStr (s : String) : String :=
  String.mk ('"' :: s.toList.flatMap escapeDebugChar ++ ['"'])

/-- `http::StatusCode::canonical_reason`, restricted to the status codes a
Kubernetes API server emits on the embedded error path. -/
def canonicalReason (code : Nat) : Option String :=
  match code with
  | 400 => some "Bad Request"
  | 401 => some "Unauthorized"
  | 403 => some "Forbidden"
  | 404 => some "Not Found"
  | 405 => some "Method Not Allowed"
  | 406 => some "Not Acceptable"
  | 408 => some "Request Timeout"
  | 409 => some "Conflict"
  | 410 => some "Gone"
  | 422 => some "Unprocessable Entity"
  | 429 => some "Too Many Requests"
  | 500 => some "Internal Server Error"
  | 502 => some "Bad Gateway"
  | 503 => some "Service Unavailable"
  | 504 => some "Gateway Timeout"
  | _ => none

/-- `StatusCode`'s `Display`: the numeric code followed by the canonical
reason phrase. -/
def statusCodeDisplay (code : Nat) : String :=
  toString code ++ " " ++ ((canonicalReason code).getD "<unknown status code>")

/-- `StatusCode::is_client_error`. -/
def is_client_error (s : Nat) : Bool := decide (400 ≤ s ∧ s < 500)

/-- `StatusCode::is_server_error`. -/
def is_server_error (s : Nat) : Bool := decide (500 ≤ s ∧ s < 600)

/-- The client error type, restricted to the variant reachable from
`handle_api_errors` (`kube::Error::Api`). -/
inductive Error where
  | api (status : Status)
  deriving DecidableEq

/-- `handle_api_errors` from `kube/src/client/mod.rs`, parameterized by the
`Status` parser (`serde_json::from_str::<Status>`): on a 4xx/5xx status the
body is parsed as a `Status` and returned as `Error::Api`; when parsing
fails a `Status` is synthesized with the display of the HTTP status, the
`Debug`-formatted body as `message`, the code, and reason
`"Failed to parse error data"`. -/
def handle_api_errors (parseStatus : String → Option Status) (text : String)
    (s : Nat) : Except Error Unit :=
  if is_client_error s || is_server_error s then
    match parseStatus text with
    | some errdata => .error (.api errdata)
    | none =>
      .error (.api
        { status := some (statusCodeDisplay s),
          code := some (s : Int),
          message := some (rustDebugStr text),
          reason := some "Failed to parse error data" })
  else .ok ()

/-- C4 counterexample: for the unparsable body `oops` with status 404, the
synthesized `Status` carries `message = "\"oops\""` — the `Debug`-quoted
body, not the body itself as the claim states. -/
theorem handle_api_errors_message_is_debug_quoted :
    handle_api_errors parseStatusText "oops" 404 =
        .error (.api
          { status := some "404 Not Found",
            message := some "\"oops\"",
            reason := some "Failed to parse error data",
            code := some 404 }) ∧
      ("\"oops\"" : String) ≠ "oops" := ⟨rfl, by decide⟩

/-- C4 (amended): for any status parser, body and HTTP status: a status in
`[400, 600)` whose body parses as a `Status` fails with that `Status`; a
status in `[400, 600)` whose body does not parse fails with a synthesized
`Status` whose `code` is the HTTP status, whose `message` is the
`Debug`-formatted (quote-wrapped and escaped) body, and whose `reason` is
`"Failed to parse error data"`; a status below 400 (or at/above 600) raises
no error. -/
theorem handle_api_errors_spec (parseStatus : String → Option Status)
    (text : String) (s : Nat) :
    (400 ≤ s → s < 600 → ∀ st, parseStatus text = some st →
      handle_api_errors parseStatus text s = .error (.api st)) ∧
    (400 ≤ s → s < 600 → parseStatus text = none →
      handle_api_errors parseStatus text s =
        .error (.api
          { status := some (statusCodeDisplay s),
            message := some (rustDebugStr text),
            reason := some "Failed to parse error data",
            code := some (s : Int) })) ∧
    (s < 400 ∨ 600 ≤ s → handle_api_errors parseStatus text s = .ok ()) := by
  have hrange :
      (is_client_error s || is_server_error s) = true ↔ 400 ≤ s ∧ s < 600 := by
    simp [is_client_error, is_server_error]
    omega
  refine ⟨?_, ?_, ?_⟩
  · intro h4 h6 st hst
    have hb : (is_client_error s || is_server_error s) = true :=
      hrange.mpr ⟨h4, h6⟩
    simp [handle_api_errors, hb, hst]
  · intro h4 h6 hst
    have hb : (is_client_error s || is_server_error s) = true :=
      hrange.mpr ⟨h4, h6⟩
    simp [handle_api_errors, hb, hst]
  · intro h
    have hb : ¬(is_client_error s || is_server_error s) = true := by
      rw [hrange]
      omega
    simp [handle_api_errors, hb]

/-- Witness: `handle_api_errors_spec` at the real parser, the body `ok` (not
a 4xx/5xx call, no error raised) — applied with status 200. -/
theorem handle_api_errors_spec_witness :
    handle_api_errors parseStatusText "ok" 200 = .ok () :=
  (handle_api_errors_spec parseStatusText "ok" 200).2.2 (Or.inl (by decide))

end Client

namespace Conversion

/-- `TypeMeta`: the flattened `apiVersion`/`kind` pair. -/
structure TypeMeta where
  api_version : String
  kind : String
  deriving DecidableEq

/-- Modelled from the spec: `kube_core::response::StatusSummary` is not under
`src/`; the status of a `Status` is either `Success` or `Failure`. -/
inductive StatusSummary where
  | success
  | failure
  deriving DecidableEq

/-- Modelled from the spec: `kube_core::response::Status` is not under
`src/`.  Its shape is fixed by the struct literal in
`impl From<ConversionRequest> for ConversionResponse`
(`kube-core/src/conversion/types.rs`): fields `status`, `message`, `reason`,
`details` and `code`, with an empty default.  `details` is never inspected by
the embedded fragment and is embedded as `Option Unit`. -/
structure Status where
  status : Option StatusSummary
  message : String
  reason : String
  details : Option Unit
  code : Nat
  deriving DecidableEq

/-- Modelled from the spec: `Status::success()` — a success summary with
empty message, reason and code. -/
def Status.success : Status := ⟨some .success, "", "", none, 0⟩

/-- Modelled from the spec: `Status::failure(message, reason)`. -/
def Status.failure (message reason : String) : Status :=
  ⟨some .failure, message, reason, none, 0⟩

/-- `ConversionRequest` from `kube-core/src/conversion/types.rs` (`types` is
`#[serde(skip)]`). -/
structure ConversionRequest where
  types : Option TypeMeta
  uid : String
  desired_api_version : String
  objects : List Json

/-- `ConversionResponse` from `kube-core/src/conversion/types.rs` (`types` is
`#[serde(skip)]`). -/
structure ConversionResponse where
  types : Option TypeMeta
  uid : String
  result : Status
  converted_objects : List Json

/-- `parse_converted_objects`: the custom deserializer of
`convertedObjects` — a JSON list is taken as-is, JSON `null` becomes the
empty list (the untagged `Helper::Null(())` variant), anything else is a
deserialization error. -/
def parse_converted_objects : Json → Except String (List Json)
  | .arr xs => .ok xs
  | .null => .ok []
  | _ => .error "data did not match any variant of untagged enum Helper"

/-- The serde-derived deserializer of `ConversionResponse`, parameterized by
the `Status` deserializer of the `result` field: requires a JSON object;
`uid` must be a string and `result` must parse; `convertedObjects` has no
`#[serde(default)]`, so a missing field is an error and a present field goes
through `parse_converted_objects`; unknown fields are ignored and `types`
(`#[serde(skip)]`) is left at `None`. -/
def deserializeConversionResponse
    (parseStatus : Json → Except String Status) :
    Json → Except String ConversionResponse
  | .obj fields =>
    match Json.lookup fields "uid" with
    | some (.str uid) =>
      match Json.lookup fields "result" with
      | some resultJson =>
        match parseStatus resultJson with
        | .ok result =>
          match Json.lookup fields "convertedObjects" with
          | some converted =>
            match parse_converted_objects converted with
            | .ok objs => .ok ⟨none, uid, result, objs⟩
            | .error e => .error e
          | none => .error "missing field convertedObjects"
        | .error e => .error e
      | none => .error "missing field result"
    | some _ => .error "invalid type for field uid"
    | none => .error "missing field uid"
  | _ => .error "invalid type: expected a map"

/-- `ConversionResponse::for_request` (via
`From<ConversionRequest>`): copy `types` and `uid`, empty `Status`, empty
`converted_objects`. -/
def ConversionResponse.for_request (request : ConversionRequest) :
    ConversionResponse :=
  ⟨request.types, request.uid, ⟨none, "", "", none, 0⟩, []⟩

/-- `ConversionResponse::success`. -/
def ConversionResponse.success (r : ConversionResponse)
    (converted_objects : List Json) : ConversionResponse :=
  { r with result := Status.success, converted_objects }

/-- `ConversionResponse::failure`: set a failure `result`, leave
`converted_objects` as constructed. -/
def ConversionResponse.failure (r : ConversionResponse)
    (message reason : String) : ConversionResponse :=
  { r with result := Status.failure message reason }

/-- `ConversionResponse::invalid`: a failure response matched with no
request — empty `uid`, empty `converted_objects`. -/
def ConversionResponse.invalid (message reason : String) :
    ConversionResponse :=
  ⟨none, "", Status.failure message reason, []⟩

/-- Modelled from the spec: the concrete deserializer of the `result`
`Status` (kube-core's `response.rs` is not under `src/`): all fields are
optional with empty defaults; `status` is the string `Success` or
`Failure`. -/
def statusFromJson : Json → Except String Status
  | .obj fields =>
    match Json.lookup fields "status" with
    | some (.str "Success") => statusRest fields (some .success)
    | some (.str "Failure") => statusRest fields (some .failure)
    | some .null => statusRest fields none
    | none => statusRest fields none
    | some _ => .error "invalid type for field status"
  | _ => .error "invalid type: expected a map"
where
  statusRest (fields : List (String × Json)) (summary : Option StatusSummary) :
      Except String Status :=
    match Json.lookup fields "message", Json.lookup fields "reason",
        Json.lookup fields "code" with
    | some (.str message), some (.str reason), some (.num code) =>
      .ok ⟨summary, message, reason, none, code.toNat⟩
    | none, none, none => .ok ⟨summary, "", "", none, 0⟩
    | none, some (.str reason), none => .ok ⟨summary, "", reason, none, 0⟩
    | some (.str message), none, none => .ok ⟨summary, message, "", none, 0⟩
    | some (.str message), some (.str reason), none =>
      .ok ⟨summary, message, reason, none, 0⟩
    | _, _, _ => .error "invalid field types"

/-- C5 counterexample: a `ConversionResponse` JSON object with `uid` and
`result` but no `convertedObjects` field is rejected with a missing-field
error (the field has a null-tolerant custom deserializer but no
`#[serde(default)]`), not accepted with an empty list as the claim
states. -/
theorem conversion_missing_convertedObjects_rejected :
    deserializeConversionResponse statusFromJson
        (.obj [("uid", .str "u"), ("result", .obj [])]) =
      .error "missing field convertedObjects" ∧
    (deserializeConversionResponse statusFromJson
        (.obj [("uid", .str "u"), ("result", .obj [])])).isOk = false :=
  ⟨rfl, rfl⟩

/-- C5 (amended): a `convertedObjects` field that is JSON `null` is accepted
and yields an empty list (and a JSON list is taken as-is), but an entirely
missing `convertedObjects` field is a deserialization error; every failure
response the library constructs (`ConversionResponse::failure` on a response
built for a matched request, `ConversionResponse::invalid` on an unmatched
one) carries an empty `converted_objects` list, with `invalid` additionally
carrying an empty `uid`. -/
theorem conversion_response_spec
    (parseStatus : Json → Except String Status)
    (fields : List (String × Json)) (uid : String) (resJson : Json)
    (st : Status) :
    (Json.lookup fields "uid" = some (.str uid) →
      Json.lookup fields "result" = some resJson →
      parseStatus resJson = .ok st →
      Json.lookup fields "convertedObjects" = some .null →
      deserializeConversionResponse parseStatus (.obj fields) =
        .ok ⟨none, uid, st, []⟩) ∧
    (∀ objs : List Json,
      Json.lookup fields "uid" = some (.str uid) →
      Json.lookup fields "result" = some resJson →
      parseStatus resJson = .ok st →
      Json.lookup fields "convertedObjects" = some (.arr objs) →
      deserializeConversionResponse parseStatus (.obj fields) =
        .ok ⟨none, uid, st, objs⟩) ∧
    (Json.lookup fields "uid" = some (.str uid) →
      Json.lookup fields "result" = some resJson →
      parseStatus resJson = .ok st →
      Json.lookup fields "convertedObjects" = none →
      deserializeConversionResponse parseStatus (.obj fields) =
        .error "missing field convertedObjects") ∧
    (∀ (req : ConversionRequest) (message reason : String),
      ((ConversionResponse.for_request req).failure message
          reason).converted_objects = []) ∧
    (∀ message reason : String,
      (ConversionResponse.invalid message reason).converted_objects = [] ∧
        (ConversionResponse.invalid message reason).uid = "") := by
  refine ⟨?_, ?_, ?_, ?_, ?_⟩
  · intro hu hr hst hcv
    simp [deserializeConversionResponse, hu, hr, hst, hcv,
      parse_converted_objects]
  · intro objs hu hr hst hcv
    simp [deserializeConversionResponse, hu, hr, hst, hcv,
      parse_converted_objects]
  · intro hu hr hst hcv
    simp [deserializeConversionResponse, hu, hr, hst, hcv]
  · intro req message reason
    rfl
  · intro message reason
    exact ⟨rfl, rfl⟩

/-- Witness: `conversion_response_spec` at a concrete response whose
`convertedObjects` is `null`. -/
theorem conversion_response_spec_witness :
    deserializeConversionResponse statusFromJson
        (.obj [("uid", .str "u"), ("result", .obj []),
          ("convertedObjects", .null)]) =
      .ok ⟨none, "u", ⟨none, "", "", none, 0⟩, []⟩ :=
  (conversion_response_spec statusFromJson
      [("uid", .str "u"), ("result", .obj []), ("convertedObjects", .null)]
      "u" (.obj []) ⟨none, "", "", none, 0⟩).1 rfl rfl rfl rfl

end Conversion

namespace Upgrade

/-- `StreamProtocol` from `kube-client/src/client/upgrade.rs`. -/
inductive StreamProtocol where
  | v4
  | v5
  deriving DecidableEq

/-- `StreamProtocol::as_str`. -/
def StreamProtocol.as_str : StreamProtocol → String
  | .v4 => "v4.channel.k8s.io"
  | .v5 => "v5.channel.k8s.io"

/-- ASCII lowercasing of one character. -/
def asciiLower (c : Char) : Char :=
  if 'A' ≤ c ∧ c ≤ 'Z' then Char.ofNat (c.toNat + 32) else c

/-- `str::eq_ignore_ascii_case`. -/
def eqIgnoreAsciiCase (a b : String) : Bool :=
  decide (a.toList.map asciiLower = b.toList.map asciiLower)

/-- An HTTP response: status code and header list.  `http::HeaderMap` matches
header names case-insensitively and `get` returns the first value; header
values are embedded as strings (`to_str` succeeds on the ASCII values
involved). -/
structure Response where
  status : Nat
  headers : List (String × String)

/-- `HeaderMap::get` by case-insensitive name. -/
def getHeader (headers : List (String × String)) (name : String) :
    Option String :=
  match headers with
  | [] => none
  | (k, v) :: rest =>
    if eqIgnoreAsciiCase k name then some v else getHeader rest name

/-- Whether a header is present and its value satisfies `p` —
`headers.get(name).map(p).unwrap_or(false)`. -/
def headerIs (headers : List (String × String)) (name : String)
    (p : String → Bool) : Bool :=
  ((getHeader headers name).map p).getD false

/-- The standard base64 alphabet. -/
def base64Table : List Char :=
  strChars "ABCDEFGHIJKLMNOPQRSTUVWXYZabcdefghijklmnopqrstuvwxyz0123456789+/"

/-- One base64 digit. -/
def b64c (n : Nat) : Char := base64Table.getD n 'A'

/-- Standard base64 of a byte sequence, with `=` padding. -/
def base64Chunks : List Nat → List Char
  | b0 :: b1 :: b2 :: rest =>
    b64c (b0 / 4) :: b64c (b0 % 4 * 16 + b1 / 16) ::
      b64c (b1 % 16 * 4 + b2 / 64) :: b64c (b2 % 64) :: base64Chunks rest
  | [b0, b1] =>
    [b64c (b0 / 4), b64c (b0 % 4 * 16 + b1 / 16), b64c (b1 % 16 * 4), '=']
  | [b0] => [b64c (b0 / 4), b64c (b0 % 4 * 16), '=', '=']
  | [] => []

/-- `base64::encode`. -/
def base64Encode (bytes : List Nat) : String := String.mk (base64Chunks bytes)

/-- The RFC6455 GUID, as bytes. -/
def wsGuidBytes : List Nat :=
  (strChars "258EAFA5-E914-47DA-95CA-C5AB0DC85B11").map Char.toNat

/-- `derive_accept_key`: `base64(SHA1(key ++ GUID))`.  The SHA1 digest
itself is computed by an external crate (`sha1`/`tungstenite`) and is taken
as a parameter. -/
def derive_accept_key (sha1 : List Nat → List Nat) (key : String) : String :=
  base64Encode (sha1 (key.toList.map Char.toNat ++ wsGuidBytes))

/-- `UpgradeConnectionError` from `kube-client/src/client/upgrade.rs`; the
older client's `kube::Error` has variants of the same five names and
meanings, so both verifiers are embedded with this one error type. -/
inductive UpgradeConnectionError where
  | protocolSwitch (status : Nat)
  | missingUpgradeWebSocketHeader
  | missingConnectionUpgradeHeader
  | secWebSocketAcceptKeyMismatch
  | secWebSocketProtocolMismatch
  deriving DecidableEq

/-- `get_subprotocol`: the `Sec-WebSocket-Protocol` value, if it is exactly
the v4 or v5 channel protocol (byte equality). -/
def get_subprotocol (res : Response) : Option StreamProtocol :=
  match getHeader res.headers "sec-websocket-protocol" with
  | some protocol =>
    if protocol = StreamProtocol.v4.as_str then some .v4
    else if protocol = StreamProtocol.v5.as_str then some .v5
    else none
  | none => none

/-- `verify_response` from `kube-client/src/client/upgrade.rs`: check status
101, `Upgrade: websocket` (ASCII-case-insensitive), `Connection: Upgrade`
(ASCII-case-insensitive), the accept key, then the subprotocol (v4 or v5),
returning the negotiated protocol. -/
def verify_response (sha1 : List Nat → List Nat) (res : Response)
    (key : String) : Except UpgradeConnectionError StreamProtocol :=
  if res.status ≠ 101 then .error (.protocolSwitch res.status)
  else if ¬headerIs res.headers "upgrade"
      (fun h => eqIgnoreAsciiCase h "websocket") then
    .error .missingUpgradeWebSocketHeader
  else if ¬headerIs res.headers "connection"
      (fun h => eqIgnoreAsciiCase h "Upgrade") then
    .error .missingConnectionUpgradeHeader
  else if ¬headerIs res.headers "sec-websocket-accept"
      (fun h => h == derive_accept_key sha1 key) then
    .error .secWebSocketAcceptKeyMismatch
  else
    match get_subprotocol res with
    | some protocol => .ok protocol
    | none => .error .secWebSocketProtocolMismatch

/-- The fixed subprotocol of the older client (`kube/src/client/mod.rs`). -/
def WS_PROTOCOL : String := "v4.channel.k8s.io"

/-- `verify_upgrade_response` from `kube/src/client/mod.rs`: the same four
checks, but the `Sec-WebSocket-Protocol` header must equal `WS_PROTOCOL`
(v4) exactly. -/
def verify_upgrade_response (sha1 : List Nat → List Nat) (res : Response)
    (key : String) : Except UpgradeConnectionError Unit :=
  if res.status ≠ 101 then .error (.protocolSwitch res.status)
  else if ¬headerIs res.headers "upgrade"
      (fun h => eqIgnoreAsciiCase h "websocket") then
    .error .missingUpgradeWebSocketHeader
  else if ¬headerIs res.headers "connection"
      (fun h => eqIgnoreAsciiCase h "Upgrade") then
    .error .missingConnectionUpgradeHeader
  else if ¬headerIs res.headers "sec-websocket-accept"
      (fun h => h == derive_accept_key sha1 key) then
    .error .secWebSocketAcceptKeyMismatch
  else if ¬headerIs res.headers "sec-websocket-protocol"
      (fun h => h == WS_PROTOCOL) then
    .error .secWebSocketProtocolMismatch
  else .ok ()

/-- A stand-in 20-byte digest function for concrete evaluations: the refuted
and witnessed statements do not depend on SHA1's internals. -/
def sha1Stub : List Nat → List Nat := fun _ => List.range 20

/-- C6 counterexample: a response that satisfies every condition of the claim
(status 101, correct `Upgrade`/`Connection` headers, matching accept key,
subprotocol `v5.channel.k8s.io`) is rejected by the older client's
`verify_upgrade_response` with `SecWebSocketProtocolMismatch` — that
verifier accepts only v4 — while `verify_response` accepts it with
protocol v5. -/
theorem legacy_verifier_rejects_v5 :
    verify_upgrade_response sha1Stub
        { status := 101,
          headers := [("upgrade", "websocket"), ("connection", "Upgrade"),
            ("sec-websocket-accept", derive_accept_key sha1Stub "k"),
            ("sec-websocket-protocol", "v5.channel.k8s.io")] } "k" =
      .error .secWebSocketProtocolMismatch ∧
    verify_response sha1Stub
        { status := 101,
          headers := [("upgrade", "websocket"), ("connection", "Upgrade"),
            ("sec-websocket-accept", derive_accept_key sha1Stub "k"),
            ("sec-websocket-protocol", "v5.channel.k8s.io")] } "k" =
      .ok .v5 := ⟨rfl, rfl⟩

theorem get_subprotocol_some_iff (res : Response) :
    (∃ p, get_subprotocol res = some p) ↔
      getHeader res.headers "sec-websocket-protocol" =
          some "v4.channel.k8s.io" ∨
        getHeader res.headers "sec-websocket-protocol" =
          some "v5.channel.k8s.io" := by
  unfold get_subprotocol
  cases h : getHeader res.headers "sec-websocket-protocol" with
  | none => simp
  | some protocol =>
    by_cases h4 : protocol = StreamProtocol.v4.as_str
    · simp [h4, StreamProtocol.as_str]
    · by_cases h5 : protocol = StreamProtocol.v5.as_str
      · simp [h4, h5, StreamProtocol.as_str]
      · simp only [StreamProtocol.as_str] at h4 h5
        simp [StreamProtocol.as_str, h4, h5]

/-- C6 (amended): for the current client's `verify_response`, verification
succeeds (returning the negotiated protocol) if and only if the status is
101, the `Upgrade` header equals `websocket` case-insensitively, the
`Connection` header equals `Upgrade` case-insensitively, the
`Sec-WebSocket-Accept` header equals `base64(SHA1(key ++ GUID))`, and the
`Sec-WebSocket-Protocol` header is exactly `v4.channel.k8s.io` or
`v5.channel.k8s.io`; each violated condition (first in check order) yields
its distinct error.  The older client's `verify_upgrade_response` performs
the same checks but accepts only the v4 subprotocol. -/
theorem verify_response_spec (sha1 : List Nat → List Nat) (res : Response)
    (key : String) :
    ((∃ p, verify_response sha1 res key = .ok p) ↔
      (res.status = 101 ∧
        headerIs res.headers "upgrade"
          (fun h => eqIgnoreAsciiCase h "websocket") = true ∧
        headerIs res.headers "connection"
          (fun h => eqIgnoreAsciiCase h "Upgrade") = true ∧
        headerIs res.headers "sec-websocket-accept"
          (fun h => h == derive_accept_key sha1 key) = true ∧
        (getHeader res.headers "sec-websocket-protocol" =
            some "v4.channel.k8s.io" ∨
          getHeader res.headers "sec-websocket-protocol" =
            some "v5.channel.k8s.io"))) ∧
    (res.status ≠ 101 →
      verify_response sha1 res key = .error (.protocolSwitch res.status)) ∧
    (res.status = 101 →
      headerIs res.headers "upgrade"
        (fun h => eqIgnoreAsciiCase h "websocket") = false →
      verify_response sha1 res key = .error .missingUpgradeWebSocketHeader) ∧
    (res.status = 101 →
      headerIs res.headers "upgrade"
        (fun h => eqIgnoreAsciiCase h "websocket") = true →
      headerIs res.headers "connection"
        (fun h => eqIgnoreAsciiCase h "Upgrade") = false →
      verify_response sha1 res key = .error .missingConnectionUpgradeHeader) ∧
    (res.status = 101 →
      headerIs res.headers "upgrade"
        (fun h => eqIgnoreAsciiCase h "websocket") = true →
      headerIs res.headers "connection"
        (fun h => eqIgnoreAsciiCase h "Upgrade") = true →
      headerIs res.headers "sec-websocket-accept"
        (fun h => h == derive_accept_key sha1 key) = false →
      verify_response sha1 res key = .error .secWebSocketAcceptKeyMismatch) ∧
    (res.status = 101 →
      headerIs res.headers "upgrade"
        (fun h => eqIgnoreAsciiCase h "websocket") = true →
      headerIs res.headers "connection"
        (fun h => eqIgnoreAsciiCase h "Upgrade") = true →
      headerIs res.headers "sec-websocket-accept"
        (fun h => h == derive_accept_key sha1 key) = true →
      get_subprotocol res = none →
      verify_response sha1 res key = .error .secWebSocketProtocolMismatch) ∧
    ((verify_upgrade_response sha1 res key = .ok ()) ↔
      (res.status = 101 ∧
        headerIs res.headers "upgrade"
          (fun h => eqIgnoreAsciiCase h "websocket") = true ∧
        headerIs res.headers "connection"
          (fun h => eqIgnoreAsciiCase h "Upgrade") = true ∧
        headerIs res.headers "sec-websocket-accept"
          (fun h => h == derive_accept_key sha1 key) = true ∧
        headerIs res.headers "sec-websocket-protocol"
          (fun h => h == WS_PROTOCOL) = true)) := by
  refine ⟨?_, ?_, ?_, ?_, ?_, ?_, ?_⟩
  · constructor
    · intro hp
      obtain ⟨p, hp⟩ := hp
      by_cases h1 : res.status = 101
      · by_cases h2 : headerIs res.headers "upgrade"
            (fun h => eqIgnoreAsciiCase h "websocket") = true
        · by_cases h3 : headerIs res.headers "connection"
              (fun h => eqIgnoreAsciiCase h "Upgrade") = true
          · by_cases h4 : headerIs res.headers "sec-websocket-accept"
                (fun h => h == derive_accept_key sha1 key) = true
            · refine ⟨h1, h2, h3, h4, ?_⟩
              rw [← get_subprotocol_some_iff]
              simp only [verify_response, h1, h2, h3, h4] at hp
              simp only [ne_eq, not_true_eq_false, if_false,
                not_true_eq_false] at hp
              cases hs : get_subprotocol res with
              | none => rw [hs] at hp; cases hp
              | some q => exact ⟨q, rfl⟩
            · simp [verify_response, h1, h2, h3, h4] at hp
          · simp [verify_response, h1, h2, h3] at hp
        · simp [verify_response, h1, h2] at hp
      · simp [verify_response, h1] at hp
    · rintro ⟨h1, h2, h3, h4, h5⟩
      have hs : ∃ p, get_subprotocol res = some p :=
        (get_subprotocol_some_iff res).mpr h5
      obtain ⟨p, hp⟩ := hs
      exact ⟨p, by simp [verify_response, h1, h2, h3, h4, hp]⟩
  · intro h1
    simp [verify_response, h1]
  · intro h1 h2
    simp [verify_response, h1, h2]
  · intro h1 h2 h3
    simp [verify_response, h1, h2, h3]
  · intro h1 h2 h3 h4
    simp [verify_response, h1, h2, h3, h4]
  · intro h1 h2 h3 h4 hs
    simp [verify_response, h1, h2, h3, h4, hs]
  · constructor
    · intro hok
      by_cases h1 : res.status = 101
      · by_cases h2 : headerIs res.headers "upgrade"
            (fun h => eqIgnoreAsciiCase h "websocket") = true
        · by_cases h3 : headerIs res.headers "connection"
              (fun h => eqIgnoreAsciiCase h "Upgrade") = true
          · by_cases h4 : headerIs res.headers "sec-websocket-accept"
                (fun h => h == derive_accept_key sha1 key) = true
            · by_cases h5 : headerIs res.headers "sec-websocket-protocol"
                  (fun h => h == WS_PROTOCOL) = true
              · exact ⟨h1, h2, h3, h4, h5⟩
              · simp [verify_upgrade_response, h1, h2, h3, h4, h5] at hok
            · simp [verify_upgrade_response, h1, h2, h3, h4] at hok
          · simp [verify_upgrade_response, h1, h2, h3] at hok
        · simp [verify_upgrade_response, h1, h2] at hok
      · simp [verify_upgrade_response, h1] at hok
    · rintro ⟨h1, h2, h3, h4, h5⟩
      simp [verify_upgrade_response, h1, h2, h3, h4, h5]

/-- Witness: `verify_response_spec` at a concrete non-101 response. -/
theorem verify_response_spec_witness :
    verify_response sha1Stub { status := 500, headers := [] } "k" =
      .error (.protocolSwitch 500) :=
  (verify_response_spec sha1Stub { status := 500, headers := [] } "k").2.1
    (by decide)

end Upgrade

namespace Boundary

/-- `ObjectMeta` (`k8s_openapi`), restricted to the identity fields the
error-boundary path addresses objects by; `namespaceField` embeds the
`namespace` field (a Lean keyword). -/
structure ObjectMeta where
  name : Option String
  namespaceField : Option String
  deriving DecidableEq

/-- `InvalidObject` from `kube-core/src/error_boundary.rs`: the
deserialization error message alongside the object's metadata. -/
structure InvalidObject where
  error : String
  metadata : ObjectMeta
  deriving DecidableEq

/-- `ErrorBoundary<T>(pub Result<T, InvalidObject>)`. -/
structure ErrorBoundary (T : Type) where
  result : Except InvalidObject T

/-- The derived deserializer of the local `ObjectMetaContainer { metadata }`
struct: requires an object with a `metadata` field, parsed by `ObjectMeta`'s
deserializer (passed as a parameter — `k8s_openapi` is external). -/
def objectMetaContainer (parseMeta : Json → Except String ObjectMeta) :
    Json → Except String ObjectMeta
  | .obj fields =>
    match Json.lookup fields "metadata" with
    | some metaJson => parseMeta metaJson
    | none => .error "missing field metadata"
  | _ => .error "invalid type: expected a map"

/-- `impl Deserialize for ErrorBoundary<T>`: buffer the raw value (a JSON
value always re-buffers successfully), try `T`'s deserializer, and on failure
fall back to extracting the `metadata` field; only when that also fails does
the whole deserialization fail. -/
def deserializeErrorBoundary {T : Type} (parseT : Json → Except String T)
    (parseMeta : Json → Except String ObjectMeta) (v : Json) :
    Except String (ErrorBoundary T) :=
  match parseT v with
  | .ok obj => .ok ⟨.ok obj⟩
  | .error err =>
    match objectMetaContainer parseMeta v with
    | .ok metadata => .ok ⟨.error ⟨err, metadata⟩⟩
    | .error e => .error e

/-- `Resource::meta` for `ErrorBoundary<T>`: the inner object's metadata, or
the recorded metadata of the invalid object. -/
def ErrorBoundary.meta {T : Type} (tMeta : T → ObjectMeta)
    (b : ErrorBoundary T) : ObjectMeta :=
  match b.result with
  | .ok obj => tMeta obj
  | .error invalid => invalid.metadata

/-- A concrete `ObjectMeta` deserializer for witnesses: optional `name` and
`namespace` string fields. -/
def objectMetaFromJson : Json → Except String ObjectMeta
  | .obj fields =>
    match Client.getOptString fields "name",
        Client.getOptString fields "namespace" with
    | some name, some ns => .ok ⟨name, ns⟩
    | _, _ => .error "invalid ObjectMeta"
  | _ => .error "invalid type: expected a map"

/-- C8: deserializing as `ErrorBoundary<T>` yields the `Ok(t)` variant exactly
when the value parses as `T`; when `T`'s parse fails with message `err` but
the value's `metadata` field parses as `ObjectMeta`, deserialization still
succeeds, yielding an `InvalidObject` recording `err` together with that
metadata, and `meta()` returns that metadata — the object stays addressable
by its `(namespace, name)` key. -/
theorem error_boundary_spec (T : Type) (parseT : Json → Except String T)
    (parseMeta : Json → Except String ObjectMeta) (tMeta : T → ObjectMeta)
    (v : Json) :
    (∀ t : T,
      deserializeErrorBoundary parseT parseMeta v = .ok ⟨.ok t⟩ ↔
        parseT v = .ok t) ∧
    (∀ (err : String) (fields : List (String × Json)) (metaJson : Json)
        (m : ObjectMeta),
      parseT v = .error err → v = .obj fields →
      Json.lookup fields "metadata" = some metaJson →
      parseMeta metaJson = .ok m →
      deserializeErrorBoundary parseT parseMeta v = .ok ⟨.error ⟨err, m⟩⟩ ∧
        ErrorBoundary.meta tMeta ⟨.error ⟨err, m⟩⟩ = m) := by
  refine ⟨?_, ?_⟩
  · intro t
    constructor
    · intro h
      cases hp : parseT v with
      | ok t2 =>
        simp only [deserializeErrorBoundary, hp, Except.ok.injEq,
          ErrorBoundary.mk.injEq] at h
        exact congrArg Except.ok h
      | error err =>
        rw [deserializeErrorBoundary, hp] at h
        cases hm : objectMetaContainer parseMeta v with
        | ok m => rw [hm] at h; simp at h
        | error e => rw [hm] at h; cases h
    · intro h
      simp [deserializeErrorBoundary, h]
  · intro err fields metaJson m hp hv hlookup hm
    subst hv
    refine ⟨?_, rfl⟩
    simp [deserializeErrorBoundary, hp, objectMetaContainer, hlookup, hm]

/-- Witness: `error_boundary_spec` with a parser that always fails, on an
object whose `metadata` carries a name and namespace: the boundary records
the error and the metadata, and `meta()` addresses the object by them. -/
theorem error_boundary_spec_witness :
    deserializeErrorBoundary (T := Unit) (fun _ => .error "unknown variant")
        objectMetaFromJson
        (.obj [("metadata",
          .obj [("name", .str "cm-a"), ("namespace", .str "default")])]) =
      .ok ⟨.error ⟨"unknown variant", ⟨some "cm-a", some "default"⟩⟩⟩ ∧
      ErrorBoundary.meta (T := Unit) (fun _ => ⟨none, none⟩)
        ⟨.error ⟨"unknown variant", ⟨some "cm-a", some "default"⟩⟩⟩ =
        ⟨some "cm-a", some "default"⟩ :=
  (error_boundary_spec Unit (fun _ => .error "unknown variant")
      objectMetaFromJson (fun _ => ⟨none, none⟩)
      (.obj [("metadata",
        .obj [("name", .str "cm-a"), ("namespace", .str "default")])])).2
    "unknown variant"
    [("metadata", .obj [("name", .str "cm-a"), ("namespace", .str "default")])]
    (.obj [("name", .str "cm-a"), ("namespace", .str "default")])
    ⟨some "cm-a", some "default"⟩ rfl rfl rfl rfl

end Boundary
